import Mathlib

/-
  Verification of the LAQN-to-InfluxDB export pipeline.

  Shallow embedding of the acquisition-and-transform code:
  - modules/timetools.py  (TimeCalculator)
  - modules/laqn.py       (LAQNAPI: metadata fetch, measurement batching,
                           locator construction, csv-to-point transform,
                           csv store lookups)
  - main.py               (window / station driver loop)

  Python dicts are modelled as insertion-ordered association lists where a
  later binding shadows an earlier one; Python exceptions are modelled with
  Except; the pandas NaN marker for a missing Value cell is modelled as
  Option.none (the source detects it with the self-inequality test
  row["Value"] != row["Value"], which holds exactly for NaN).
-/

namespace LAQN

/-- Python exception kinds raised by the code under verification. -/
inductive PyError where
  | keyError : PyError
  | valueError : PyError
  | fetchError : PyError
deriving DecidableEq, Repr

/-- Dictionary value: the Python dicts in laqn.py mix strings and numbers,
so a point field map can hold both the numeric reading and the string-valued
static attributes taken from the metadata response. -/
inductive JVal where
  | str : String → JVal
  | num : Rat → JVal
deriving DecidableEq, Repr

/-- Calendar timestamp as produced by datetime.strptime on the csv rows. -/
structure PyDateTime where
  year : Nat
  month : Nat
  day : Nat
  hour : Nat
  minute : Nat
deriving DecidableEq, Repr

/-- Zero-padding to two digits, as the %d and %m strftime directives do. -/
def pad2 (n : Nat) : String := if n < 10 then "0" ++ toString n else toString n

/-- Abbreviated month name, the %b strftime directive. -/
def monthAbbrev : Nat → String
  | 1 => "Jan"
  | 2 => "Feb"
  | 3 => "Mar"
  | 4 => "Apr"
  | 5 => "May"
  | 6 => "Jun"
  | 7 => "Jul"
  | 8 => "Aug"
  | 9 => "Sep"
  | 10 => "Oct"
  | 11 => "Nov"
  | 12 => "Dec"
  | _ => ""

/-- strftime with format %d-%b-%Y, used for the start and end query
parameters of the csv download locator. -/
def strftime_dbY (d : PyDateTime) : String :=
  pad2 d.day ++ "-" ++ monthAbbrev d.month ++ "-" ++ toString d.year

/-- strftime with format %Y-%m-%d, used as the date key of the
measurement_csvs and measurement_jsons stores. -/
def strftime_Ymd (d : PyDateTime) : String :=
  toString d.year ++ "-" ++ pad2 d.month ++ "-" ++ pad2 d.day

/-- Splitting a character list on a separator character, the list-level
analogue of the string splits done while parsing a fixed date format. -/
def splitOnChar (c : Char) : List Char → List (List Char)
  | [] => [[]]
  | x :: xs =>
    let r := splitOnChar c xs
    if x = c then [] :: r
    else match r with
      | [] => [[x]]
      | y :: ys => (x :: y) :: ys

/-- Decimal reading of a nonempty digit group, the numeric conversion a
strptime directive performs on its matched characters. -/
def digitsToNat? (l : List Char) : Option Nat :=
  if l = [] then none
  else l.foldl (fun acc c => match acc with
    | none => none
    | some n => if c.isDigit then some (n * 10 + (c.toNat - 48)) else none) (some 0)

/-- datetime.strptime with the fixed format %d/%m/%Y %H:%M applied to the
ReadingDateTime column; returns none where the library call would raise
ValueError (non-numeric fields, wrong shape, out-of-range components). -/
def strptime_dmY_HM (s : String) : Option PyDateTime :=
  match splitOnChar ' ' s.data with
  | [dpart, tpart] =>
    match splitOnChar '/' dpart, splitOnChar ':' tpart with
    | [ds, ms, ys], [hs, mins] =>
      match digitsToNat? ds, digitsToNat? ms, digitsToNat? ys,
            digitsToNat? hs, digitsToNat? mins with
      | some dd, some mm, some yy, some hh, some mi =>
        if 1 ≤ mm ∧ mm ≤ 12 ∧ 1 ≤ dd ∧ dd ≤ 31 ∧ hh ≤ 23 ∧ mi ≤ 59 then
          some ⟨yy, mm, dd, hh, mi⟩
        else none
      | _, _, _, _, _ => none
    | _, _ => none
  | _ => none

/-- Lookup in a Python dict modelled as an insertion-ordered association
list: a later binding for a key shadows an earlier one, matching dict
assignment and the double-star merge of two dicts. -/
def pyGet (l : List (String × α)) (k : String) : Option α :=
  l.foldl (fun acc p => if p.1 = k then some p.2 else acc) none

/-- Per-station metadata entry built by get_metadata: a tags dict and a
fields dict of static attributes. -/
structure StationDict where
  tags : List (String × JVal)
  fields : List (String × JVal)
deriving DecidableEq, Repr

/-- One row of the downloaded csv table, with columns Site, Species,
ReadingDateTime, Value, Units, Provisional or Ratified.  The Value cell is
none where pandas holds NaN for a missing reading. -/
structure RawRow where
  site : String
  species : String
  readingDateTime : String
  value : Option Rat
  units : String
  provOrRatified : String
deriving DecidableEq, Repr

/-- Output record of csv_to_json_list: one InfluxDB point. -/
structure Point where
  time : PyDateTime
  measurement : String
  fields : List (String × JVal)
  tags : List (String × JVal)
deriving DecidableEq, Repr

/-- Point built from one csv row inside csv_to_json_list: the dynamic
entries are written first and the static station dicts are merged after
them, as in the double-star merges on the data_container. -/
def row_point (station : StationDict) (row : RawRow) (v : Rat) (t : PyDateTime) : Point :=
  { time := t
    measurement := "London Air Quality Network"
    fields := [(row.species, JVal.num v)] ++ station.fields
    tags := [(row.species ++ " status", JVal.str row.provOrRatified),
             (row.species ++ " Units", JVal.str row.units)] ++ station.tags }

/-- Row loop of csv_to_json_list (laqn.py lines 256 to 288): skip a row
whose Value is NaN, raise ValueError out of the whole call where strptime
cannot parse the ReadingDateTime cell, and otherwise emit one point per row
in row order. -/
def csv_to_json_core (station : StationDict) : List RawRow → Except PyError (List Point)
  | [] => .ok []
  | row :: rest =>
    match row.value with
    | none => csv_to_json_core station rest
    | some v =>
      match strptime_dmY_HM row.readingDateTime with
      | none => .error .valueError
      | some t =>
        (csv_to_json_core station rest).map (fun pts => row_point station row v t :: pts)

/-- Folding the dict-lookup step from any accumulator: the fold result is
the last binding when one exists and the accumulator otherwise. -/
theorem pyGet_foldl {α : Type} (l : List (String × α)) (k : String) (init : Option α) :
    l.foldl (fun acc p => if p.1 = k then some p.2 else acc) init
      = (pyGet l k).elim init some := by
  induction l generalizing init with
  | nil => rfl
  | cons p l ih =>
    show l.foldl _ (if p.1 = k then some p.2 else init) = _
    rw [ih]
    have hcons : pyGet (p :: l) k
        = (pyGet l k).elim (if p.1 = k then some p.2 else none) some := by
      show l.foldl _ (if p.1 = k then some p.2 else none) = _
      rw [ih]
    rw [hcons]
    cases pyGet l k with
    | none => by_cases hk : p.1 = k <;> simp [hk]
    | some w => simp

/-- Dict merge via append: a binding of the right dict wins, otherwise the
left dict is consulted, matching the Python double-star merge. -/
theorem pyGet_append {α : Type} (a b : List (String × α)) (k : String) :
    pyGet (a ++ b) k = (pyGet b k).elim (pyGet a k) some := by
  show (a ++ b).foldl _ none = _
  rw [List.foldl_append]
  exact pyGet_foldl b k (pyGet a k)

/-- Keys of the right dict of a merge are never shadowed by the left dict. -/
theorem pyGet_append_right {α : Type} (a b : List (String × α)) (k : String) (v : α)
    (h : pyGet b k = some v) : pyGet (a ++ b) k = some v := by
  rw [pyGet_append, h]; rfl

/-- Keys absent from the right dict of a merge fall through to the left dict. -/
theorem pyGet_append_left {α : Type} (a b : List (String × α)) (k : String)
    (h : pyGet b k = none) : pyGet (a ++ b) k = pyGet a k := by
  rw [pyGet_append, h]; rfl

/-- Appending distinct suffixes to the same string yields distinct strings. -/
theorem string_append_ne (s a b : String) (h : a ≠ b) : s ++ a ≠ s ++ b := by
  intro he
  apply h
  have hd : (s ++ a).data = (s ++ b).data := congrArg String.data he
  rw [String.data_append, String.data_append] at hd
  exact String.ext (List.append_cancel_left hd)

/-- Inversion of one step of the row loop on a row whose Value is NaN: the
row is skipped and the loop continues on the remaining rows. -/
theorem csv_core_cons_none (station : StationDict) (row : RawRow) (rest : List RawRow)
    (hval : row.value = none) :
    csv_to_json_core station (row :: rest) = csv_to_json_core station rest := by
  simp only [csv_to_json_core, hval]

/-- Inversion of one step of the row loop on a row whose Value is present:
on success the timestamp parsed, the remaining rows succeeded, and the
output is the point built from this row followed by the remaining points. -/
theorem csv_core_cons_some (station : StationDict) (row : RawRow) (rest : List RawRow)
    (v : Rat) (hval : row.value = some v) (pts : List Point)
    (h : csv_to_json_core station (row :: rest) = .ok pts) :
    ∃ t, strptime_dmY_HM row.readingDateTime = some t ∧
      ∃ pts2, csv_to_json_core station rest = .ok pts2 ∧
        pts = row_point station row v t :: pts2 := by
  simp only [csv_to_json_core, hval] at h
  cases ht : strptime_dmY_HM row.readingDateTime with
  | none => rw [ht] at h; cases h
  | some t =>
    rw [ht] at h
    cases hrest : csv_to_json_core station rest with
    | error e => rw [hrest] at h; cases h
    | ok pts2 =>
      rw [hrest] at h
      simp only [Except.map, Except.ok.injEq] at h
      exact ⟨t, rfl, pts2, rfl, h.symm⟩

/-- C1: every point emitted by the row transform has a fields map equal to
the dynamic quantity binding merged with the static station fields, and a
tags map equal to the two dynamic bindings merged with the static station
tags; both maps extend the static dicts, whose entries are never
overwritten by the dynamic keys, and each dynamic entry is readable under
its key whenever that key does not occur among the static keys. -/
theorem c1_point_merge (station : StationDict) (rows : List RawRow)
    (pts : List Point) (h : csv_to_json_core station rows = .ok pts) :
    ∀ p ∈ pts,
      (∀ k v, pyGet station.fields k = some v → pyGet p.fields k = some v) ∧
      (∀ k v, pyGet station.tags k = some v → pyGet p.tags k = some v) ∧
      ∃ r ∈ rows, ∃ rv : Rat, r.value = some rv ∧
        p.fields = [(r.species, JVal.num rv)] ++ station.fields ∧
        p.tags = [(r.species ++ " status", JVal.str r.provOrRatified),
                  (r.species ++ " Units", JVal.str r.units)] ++ station.tags ∧
        (pyGet station.fields r.species = none →
          pyGet p.fields r.species = some (JVal.num rv)) ∧
        (pyGet station.tags (r.species ++ " status") = none →
          pyGet p.tags (r.species ++ " status") = some (JVal.str r.provOrRatified)) ∧
        (pyGet station.tags (r.species ++ " Units") = none →
          pyGet p.tags (r.species ++ " Units") = some (JVal.str r.units)) := by
  induction rows generalizing pts with
  | nil =>
    simp only [csv_to_json_core] at h
    cases h
    intro p hp
    cases hp
  | cons row rest ih =>
    cases hval : row.value with
    | none =>
      rw [csv_core_cons_none station row rest hval] at h
      intro p hp
      obtain ⟨hf, ht, r, hr, hrest⟩ := ih pts h p hp
      exact ⟨hf, ht, r, List.mem_cons_of_mem _ hr, hrest⟩
    | some v =>
      obtain ⟨t, ht, pts2, hrest, hpts⟩ := csv_core_cons_some station row rest v hval pts h
      subst hpts
      intro p hp
      rcases List.mem_cons.mp hp with rfl | hp2
      · refine ⟨?_, ?_, row, List.mem_cons_self _ _, v, hval, rfl, rfl, ?_, ?_, ?_⟩
        · intro k w hw
          exact pyGet_append_right _ _ _ _ hw
        · intro k w hw
          exact pyGet_append_right _ _ _ _ hw
        · intro hnone
          show pyGet ([(row.species, JVal.num v)] ++ station.fields) row.species = _
          rw [pyGet_append_left _ _ _ hnone]
          simp [pyGet]
        · intro hnone
          have hne : row.species ++ " Units" ≠ row.species ++ " status" :=
            string_append_ne _ _ _ (by decide)
          show pyGet ([(row.species ++ " status", JVal.str row.provOrRatified),
                       (row.species ++ " Units", JVal.str row.units)] ++ station.tags)
                 (row.species ++ " status") = _
          rw [pyGet_append_left _ _ _ hnone]
          simp [pyGet, hne]
        · intro hnone
          show pyGet ([(row.species ++ " status", JVal.str row.provOrRatified),
                       (row.species ++ " Units", JVal.str row.units)] ++ station.tags)
                 (row.species ++ " Units") = _
          rw [pyGet_append_left _ _ _ hnone]
          simp [pyGet]
      · obtain ⟨hf, ht2, r, hr, hrest2⟩ := ih pts2 hrest p hp2
        exact ⟨hf, ht2, r, List.mem_cons_of_mem _ hr, hrest2⟩

/-- C2: on a successful transform, NaN-valued rows are skipped and every
other row yields exactly one point, so the point count is the row count
minus the NaN row count. -/
theorem c2_nan_rows_skipped (station : StationDict) (rows : List RawRow)
    (pts : List Point) (h : csv_to_json_core station rows = .ok pts) :
    pts.length + (rows.filter (fun r => r.value.isNone)).length = rows.length ∧
    pts.length = rows.length - (rows.filter (fun r => r.value.isNone)).length := by
  have key : pts.length + (rows.filter (fun r => r.value.isNone)).length = rows.length := by
    induction rows generalizing pts with
    | nil =>
      simp only [csv_to_json_core] at h
      cases h
      simp
    | cons row rest ih =>
      cases hval : row.value with
      | none =>
        rw [csv_core_cons_none station row rest hval] at h
        have hrec := ih pts h
        simp only [List.filter_cons, hval, Option.isNone_none, List.length_cons, if_pos]
        omega
      | some v =>
        obtain ⟨t, ht, pts2, hrest, hpts⟩ := csv_core_cons_some station row rest v hval pts h
        subst hpts
        have hrec := ih pts2 hrest
        simp only [List.filter_cons, hval, Option.isNone_some, List.length_cons]
        simp only [Bool.false_eq_true, if_false]
        omega
  exact ⟨key, by omega⟩

/-- Station dict used by the concrete witnesses: one static tag and one
static numeric field. -/
def exStation : StationDict :=
  { tags := [("Site Code", JVal.str "A1")]
    fields := [("Altitude (m)", JVal.num 10)] }

/-- Table row with a NaN Value cell, used by the concrete witnesses. -/
def exRowNaN : RawRow :=
  { site := "A", species := "PM10", readingDateTime := "01/01/2021 00:00"
    value := none, units := "ug m-3", provOrRatified := "Ratified" }

/-- Table row with a present Value cell, used by the concrete witnesses. -/
def exRowNO2 : RawRow :=
  { site := "A", species := "NO2", readingDateTime := "01/01/2021 00:00"
    value := some 42, units := "ug m-3", provOrRatified := "Ratified" }

/-- Two-row table used by the concrete witnesses. -/
def exRows : List RawRow := [exRowNaN, exRowNO2]

/-- Point list produced by the row transform on the witness table. -/
def exPts : List Point := [row_point exStation exRowNO2 42 ⟨2021, 1, 1, 0, 0⟩]

/-- Witness for C1: on the concrete table the emitted point keeps the
static station field readable and exposes the dynamic quantity field. -/
theorem c1_point_merge_witness :
    pyGet ((row_point exStation exRowNO2 42 ⟨2021, 1, 1, 0, 0⟩).fields) "Altitude (m)"
      = some (JVal.num 10) ∧
    pyGet ((row_point exStation exRowNO2 42 ⟨2021, 1, 1, 0, 0⟩).fields) "NO2"
      = some (JVal.num 42) := by
  have h := c1_point_merge exStation exRows exPts rfl
  obtain ⟨hf, ht, hex⟩ := h (row_point exStation exRowNO2 42 ⟨2021, 1, 1, 0, 0⟩) (by decide)
  refine ⟨hf "Altitude (m)" (JVal.num 10) (by decide), ?_⟩
  obtain ⟨r, hr, rv, hv, hfeq, hteq, hdynf, hdyns, hdynu⟩ := hex
  have hrr : r = exRowNaN ∨ r = exRowNO2 ∨ False := by simpa [exRows] using hr
  rcases hrr with rfl | rfl | hfalse
  · simp [exRowNaN] at hv
  · have hv42 : rv = 42 := by
      have h2 := hv
      simp [exRowNO2] at h2
      exact h2.symm
    subst hv42
    exact hdynf (by decide)
  · cases hfalse

/-- Witness for C2: on the concrete two-row table with one NaN row the
transform emits exactly one point. -/
theorem c2_nan_rows_skipped_witness :
    exPts.length = exRows.length - (exRows.filter (fun r => r.value.isNone)).length ∧
    exPts.length = 1 := by
  have h := c2_nan_rows_skipped exStation exRows exPts rfl
  exact ⟨h.2, rfl⟩

/-- Requested pollutant list of get_measurements with the
empty-configuration fallback to every configured pollutant code
(laqn.py lines 186 to 190). -/
def allowed_pollutants (configPollutants allCodes : List String) : List String :=
  if configPollutants.length = 0 then allCodes else configPollutants

/-- Number of csv download stages, int(np.ceil(count / 5)) computed on a
nonnegative count (laqn.py line 193). -/
def download_stages (n : Nat) : Nat := (n + 4) / 5

/-- One download batch: the five-element slice of the allowed list starting
at stage * 5, padded to length five by the while loop appending None
(laqn.py lines 195 to 201). -/
def stage_slice (allowed : List String) (stage : Nat) : List (Option String) :=
  let ps := ((allowed.drop (stage * 5)).take 5).map some
  ps ++ List.replicate (5 - ps.length) none

/-- The pollutants_per_stage list built by the stage loop
(laqn.py lines 194 to 201). -/
def pollutants_per_stage (allowed : List String) : List (List (Option String)) :=
  (List.range (download_stages allowed.length)).map (stage_slice allowed)

/-- Each batch has exactly five slots. -/
theorem stage_slice_length (allowed : List String) (s : Nat) :
    (stage_slice allowed s).length = 5 := by
  simp only [stage_slice, List.length_append, List.length_replicate, List.length_map,
    List.length_take, List.length_drop]
  omega

/-- Replicated empty markers contribute nothing to the occupied slots. -/
theorem filterMap_replicate_none {α : Type} (n : Nat) :
    (List.replicate n (none : Option α)).filterMap id = [] := by
  induction n with
  | zero => rfl
  | succ n ih => simp [List.replicate_succ, ih]

/-- The occupied slots of one batch are exactly its slice of the allowed
list. -/
theorem filterMap_stage_slice (allowed : List String) (s : Nat) :
    (stage_slice allowed s).filterMap id = (allowed.drop (s * 5)).take 5 := by
  simp only [stage_slice, List.filterMap_append, filterMap_replicate_none,
    List.append_nil, List.filterMap_map]
  simp

/-- Joining the consecutive five-element slices of a list recovers the
list whenever enough slices are taken. -/
theorem join_take_slices {α : Type} :
    ∀ (n : Nat) (l : List α), l.length ≤ n * 5 →
      ((List.range n).map (fun s => (l.drop (s * 5)).take 5)).flatten = l := by
  intro n
  induction n with
  | zero =>
    intro l h
    have hl : l = [] := List.eq_nil_of_length_eq_zero (by omega)
    simp [hl]
  | succ n ih =>
    intro l h
    rw [List.range_succ_eq_map]
    rw [List.map_cons, List.map_map, List.flatten_cons]
    have hfun : ((fun s => (l.drop (s * 5)).take 5) ∘ Nat.succ)
        = fun s => ((l.drop 5).drop (s * 5)).take 5 := by
      funext s
      simp only [Function.comp_apply, List.drop_drop]
      congr 2
      omega
    rw [hfun, ih (l.drop 5) (by rw [List.length_drop]; omega)]
    simp

/-- C3: the batcher produces ceil(L/5) batches of exactly five slots, the
slots past the allowed list hold the empty marker, the occupied slots
joined across batches are exactly the allowed list, and under distinct
codes every code occurs exactly once across the batches. -/
theorem c3_batching (allowed : List String) (hnd : allowed.Nodup) :
    (pollutants_per_stage allowed).length = (allowed.length + 4) / 5 ∧
    (∀ b ∈ pollutants_per_stage allowed, b.length = 5) ∧
    (pollutants_per_stage allowed).flatten.filterMap id = allowed ∧
    (∀ s i, s < download_stages allowed.length → i < 5 →
      allowed.length ≤ s * 5 + i →
      ((pollutants_per_stage allowed).getD s []).getD i (some "") = none) ∧
    (∀ c ∈ allowed, ((pollutants_per_stage allowed).flatten.filterMap id).count c = 1) := by
  have hjoin : (pollutants_per_stage allowed).flatten.filterMap id = allowed := by
    rw [pollutants_per_stage, List.filterMap_flatten, List.map_map]
    have hfun : (List.filterMap id ∘ stage_slice allowed)
        = fun s => (allowed.drop (s * 5)).take 5 := by
      funext s
      exact filterMap_stage_slice allowed s
    rw [hfun]
    exact join_take_slices _ allowed (by unfold download_stages; omega)
  refine ⟨by simp [pollutants_per_stage, download_stages], ?_, hjoin, ?_, ?_⟩
  · intro b hb
    obtain ⟨s, hs, rfl⟩ := List.mem_map.mp hb
    exact stage_slice_length allowed s
  · intro s i hs hi hlen
    have hsd : (pollutants_per_stage allowed).getD s [] = stage_slice allowed s := by
      rw [pollutants_per_stage]
      rw [List.getD_eq_getElem?_getD, List.getElem?_map, List.getElem?_range hs]
      rfl
    rw [hsd, stage_slice]
    have hplen : (((allowed.drop (s * 5)).take 5).map some).length ≤ i := by
      simp only [List.length_map, List.length_take, List.length_drop]
      omega
    rw [List.getD_append_right _ _ _ _ hplen]
    rw [List.getD_eq_getElem?_getD, List.getElem?_replicate]
    simp only [List.length_map, List.length_take, List.length_drop]
    split
    · rfl
    · rename_i hcond
      exfalso
      simp only [List.length_map, List.length_take, List.length_drop] at hplen
      omega
  · intro c hc
    rw [hjoin]
    exact List.count_eq_one_of_mem hnd hc

/-- Witness for C3 at a concrete list of seven distinct codes: two batches
whose occupied slots joined give back the input list. -/
theorem c3_batching_witness :
    (pollutants_per_stage ["NO", "NO2", "NOX", "O3", "PM10", "PM25", "SO2"]).length = 2 ∧
    (pollutants_per_stage ["NO", "NO2", "NOX", "O3", "PM10", "PM25", "SO2"]).flatten.filterMap id
      = ["NO", "NO2", "NOX", "O3", "PM10", "PM25", "SO2"] := by
  have h := c3_batching ["NO", "NO2", "NOX", "O3", "PM10", "PM25", "SO2"] (by decide)
  exact ⟨h.1, h.2.2.1⟩

/-- Species query segment for one of the five slots of a batch: a present
pollutant contributes its configured code, a padded None slot contributes
an empty code, and a pollutant missing from the configured code map raises
KeyError (laqn.py lines 209 to 216). -/
def speciesSegment (codeMap : List (String × String)) (slot : Option String) (idx : Nat) :
    Except PyError String :=
  match slot with
  | some p =>
    match pyGet codeMap p with
    | some c => .ok ("&species" ++ toString (idx + 1) ++ "=" ++ c)
    | none => .error .keyError
  | none => .ok ("&species" ++ toString (idx + 1) ++ "=")

/-- The csv download locator of one batch (laqn.py lines 207 to 221): the
csv address and site code, the five species parameters in slot order, the
start and end dates in %d-%b-%Y format, the fixed res parameter, and the
configured period.  Call sites always pass a batch of exactly five slots;
an absent slot is read as None. -/
def build_locator (csvAddress siteCode : String) (codeMap : List (String × String))
    (batch : List (Option String)) (startDate endDate : PyDateTime)
    (period : String) : Except PyError String :=
  match (List.range 5).mapM (fun i => speciesSegment codeMap (batch.getD i none) i) with
  | .error e => .error e
  | .ok segs =>
    .ok (csvAddress ++ "site=" ++ siteCode ++ String.join segs
          ++ "&start=" ++ strftime_dbY startDate
          ++ "&end=" ++ strftime_dbY endDate
          ++ "&res=6" ++ "&period=" ++ period)

/-- C4: locator construction is a pure function of its arguments: a second
call on identical inputs returns the same string; a padded empty slot
renders as an empty species parameter; and two calls differing only in the
dates share one stem followed by the start and end parameters, so only
those parameters change with the date range. -/
theorem c4_locator_stable (csvAddress siteCode : String) (codeMap : List (String × String))
    (batch : List (Option String)) (s1 e1 s2 e2 : PyDateTime) (period : String)
    (u1 u2 : String)
    (h1 : build_locator csvAddress siteCode codeMap batch s1 e1 period = .ok u1)
    (h2 : build_locator csvAddress siteCode codeMap batch s2 e2 period = .ok u2) :
    (∀ u, build_locator csvAddress siteCode codeMap batch s1 e1 period = .ok u → u = u1) ∧
    (∀ i, batch.getD i none = none →
      speciesSegment codeMap (batch.getD i none) i
        = .ok ("&species" ++ toString (i + 1) ++ "=")) ∧
    ∃ stem,
      u1 = stem ++ "&start=" ++ strftime_dbY s1 ++ "&end=" ++ strftime_dbY e1
             ++ "&res=6" ++ "&period=" ++ period ∧
      u2 = stem ++ "&start=" ++ strftime_dbY s2 ++ "&end=" ++ strftime_dbY e2
             ++ "&res=6" ++ "&period=" ++ period := by
  refine ⟨?_, ?_, ?_⟩
  · intro u hu
    rw [h1] at hu
    exact (Except.ok.inj hu).symm
  · intro i hnone
    rw [hnone]
    rfl
  · cases hm : (List.range 5).mapM (fun i => speciesSegment codeMap (batch.getD i none) i) with
    | error e =>
      rw [build_locator, hm] at h1
      cases h1
    | ok segs =>
      rw [build_locator, hm] at h1
      rw [build_locator, hm] at h2
      exact ⟨csvAddress ++ "site=" ++ siteCode ++ String.join segs,
        (Except.ok.inj h1).symm, (Except.ok.inj h2).symm⟩

/-- Witness for C4 at concrete inputs: two locators built for the same
station, batch and period but different weeks share the stem up to the
start parameter. -/
theorem c4_locator_stable_witness :
    ∃ stem,
      "http://x/csv?site=ABC&species1=14&species2=&species3=&species4=&species5=&start=01-Jan-2021&end=08-Jan-2021&res=6&period=15min"
        = stem ++ "&start=" ++ strftime_dbY ⟨2021, 1, 1, 0, 0⟩
            ++ "&end=" ++ strftime_dbY ⟨2021, 1, 8, 0, 0⟩
            ++ "&res=6" ++ "&period=" ++ "15min" ∧
      "http://x/csv?site=ABC&species1=14&species2=&species3=&species4=&species5=&start=02-Feb-2021&end=09-Feb-2021&res=6&period=15min"
        = stem ++ "&start=" ++ strftime_dbY ⟨2021, 2, 2, 0, 0⟩
            ++ "&end=" ++ strftime_dbY ⟨2021, 2, 9, 0, 0⟩
            ++ "&res=6" ++ "&period=" ++ "15min" :=
  (c4_locator_stable "http://x/csv?" "ABC" [("NO2", "14")]
    [some "NO2", none, none, none, none]
    ⟨2021, 1, 1, 0, 0⟩ ⟨2021, 1, 8, 0, 0⟩ ⟨2021, 2, 2, 0, 0⟩ ⟨2021, 2, 9, 0, 0⟩ "15min"
    "http://x/csv?site=ABC&species1=14&species2=&species3=&species4=&species5=&start=01-Jan-2021&end=08-Jan-2021&res=6&period=15min"
    "http://x/csv?site=ABC&species1=14&species2=&species3=&species4=&species5=&start=02-Feb-2021&end=09-Feb-2021&res=6&period=15min"
    rfl rfl).2.2

/-- TimeCalculator of timetools.py: a start and an end instant.  Instants
are modelled as integer epoch seconds, the resolution at which datetime
subtraction operates; the source attribute named end is rendered date_end
because end is a reserved word here. -/
structure TimeCalculator where
  start : Int
  date_end : Int
deriving DecidableEq, Repr

/-- day_difference (timetools.py line 14): (end - start).days, the count of
whole days in the difference, floored toward negative infinity exactly as
timedelta.days is; 86400 seconds per day.  The method contains no range
check and never raises. -/
def TimeCalculator.day_difference (t : TimeCalculator) : Int :=
  (t.date_end - t.start) / 86400

/-- week_difference (timetools.py line 17): int(np.ceil(days / 7)), the
ceiling of the day count over seven, written as the negated floor of the
negated quotient. -/
def TimeCalculator.week_difference (t : TimeCalculator) : Int :=
  -(-t.day_difference / 7)

/-- C5: for end at or after start the day count is nonnegative, the window
count is the ceiling of the day count over seven (characterized by the two
bracketing inequalities), and a range of exactly one day yields exactly one
window. -/
theorem c5_week_windows (t : TimeCalculator) (h : t.start ≤ t.date_end) :
    0 ≤ t.day_difference ∧
    t.day_difference ≤ 7 * t.week_difference ∧
    7 * t.week_difference ≤ t.day_difference + 6 ∧
    (t.day_difference = 1 → t.week_difference = 1) := by
  obtain ⟨s, e⟩ := t
  simp only [TimeCalculator.day_difference, TimeCalculator.week_difference] at *
  omega

/-- Witness for C5: a one-day range gives one window. -/
theorem c5_week_windows_witness :
    TimeCalculator.day_difference ⟨0, 86400⟩ = 1 ∧
    TimeCalculator.week_difference ⟨0, 86400⟩ = 1 := by
  have h := c5_week_windows ⟨0, 86400⟩ (by decide)
  exact ⟨by decide, h.2.2.2 (by decide)⟩

/-- Counterexample for C6: with end one whole day before start the method
returns the value -1; it does not fail, and no InvalidRangeError exists
anywhere in the source. -/
theorem c6_day_difference_counterexample :
    TimeCalculator.day_difference ⟨86400, 0⟩ = -1 ∧ (0 : Int) < 86400 := by decide

/-- C6 amended: day_difference is total and returns the floor of
(end - start) / 86400 for every input; on end at or after start this is the
difference truncated to whole days and is nonnegative, and on end before
start the method returns a negative count instead of failing. -/
theorem c6_day_difference_floor (t : TimeCalculator) :
    86400 * t.day_difference ≤ t.date_end - t.start ∧
    t.date_end - t.start < 86400 * (t.day_difference + 1) ∧
    (t.start ≤ t.date_end → 0 ≤ t.day_difference) ∧
    (t.date_end < t.start → t.day_difference < 0) := by
  obtain ⟨s, e⟩ := t
  simp only [TimeCalculator.day_difference]
  omega

/-- Witness for C6 amended: the reversed one-day range returns a negative
count. -/
theorem c6_day_difference_floor_witness :
    TimeCalculator.day_difference ⟨86400, 0⟩ < 0 :=
  (c6_day_difference_floor ⟨86400, 0⟩).2.2.2 (by decide)

/-- One station record of the metadata response: the @SiteName attribute
and the remaining attributes that get_metadata reads by configured key. -/
structure StationRecord where
  siteName : String
  attrs : List (String × JVal)
deriving DecidableEq, Repr

/-- The Tags and Fields sections of the LAQN config, iterated as
(source key, output name) pairs. -/
structure LAQNConfig where
  tagsCfg : List (String × String)
  fieldsCfg : List (String × String)
deriving DecidableEq, Repr

/-- Projection of one configured section onto a station record, the
station_dict assignment loops of get_metadata (laqn.py lines 109 to 112);
a configured source attribute absent from the record raises KeyError. -/
def project_section (cfg : List (String × String)) (record : StationRecord) :
    Except PyError (List (String × JVal)) :=
  cfg.mapM (fun kc =>
    match pyGet record.attrs kc.1 with
    | some v => .ok (kc.2, v)
    | none => .error .keyError)

/-- The station_dict built for one record: the tags loop runs before the
fields loop, so its error wins. -/
def build_station_dict (cfg : LAQNConfig) (record : StationRecord) :
    Except PyError StationDict :=
  match project_section cfg.tagsCfg record, project_section cfg.fieldsCfg record with
  | .ok tags, .ok fields => .ok ⟨tags, fields⟩
  | .error e, _ => .error e
  | _, .error e => .error e

/-- Assignment of one entry of the metadata dict,
self.metadata[station_name] = station_dict. -/
def metaInsert (m : String → Option StationDict) (name : String) (sd : StationDict) :
    String → Option StationDict :=
  fun n => if n = name then some sd else m n

/-- get_metadata (laqn.py lines 98 to 113): builds a station dict per
record of the response and assigns it into the existing metadata mapping;
the mapping is not cleared first, and a failing record propagates its
error. -/
def get_metadata (m : String → Option StationDict) (cfg : LAQNConfig) :
    List StationRecord → Except PyError (String → Option StationDict)
  | [] => .ok m
  | record :: rest =>
    match build_station_dict cfg record with
    | .error e => .error e
    | .ok sd => get_metadata (metaInsert m record.siteName sd) cfg rest

/-- The last record of a response carrying a given site name, which is the
one whose assignment survives the fetch loop. -/
def lastRecordFor (records : List StationRecord) (n : String) : Option StationRecord :=
  records.foldl (fun acc r => if r.siteName = n then some r else acc) none

/-- Folding the last-record search from any accumulator. -/
theorem lastRecordFor_foldl (records : List StationRecord) (n : String)
    (init : Option StationRecord) :
    records.foldl (fun acc r => if r.siteName = n then some r else acc) init
      = (lastRecordFor records n).elim init some := by
  induction records generalizing init with
  | nil => rfl
  | cons record rest ih =>
    show rest.foldl _ (if record.siteName = n then some record else init) = _
    rw [ih]
    have hcons : lastRecordFor (record :: rest) n
        = (lastRecordFor rest n).elim
            (if record.siteName = n then some record else none) some := by
      show rest.foldl _ (if record.siteName = n then some record else none) = _
      rw [ih]
    rw [hcons]
    cases lastRecordFor rest n with
    | none => by_cases hk : record.siteName = n <;> simp [hk]
    | some r => simp

/-- Lookup characterization of a successful fetch: a name carried by some
record of the response ends up mapped to the station dict built from the
last such record, and every other name keeps its previous value. -/
theorem get_metadata_lookup (cfg : LAQNConfig) :
    ∀ (records : List StationRecord) (m m2 : String → Option StationDict),
      get_metadata m cfg records = .ok m2 →
      ∀ n, (lastRecordFor records n = none → m2 n = m n) ∧
           (∀ r, lastRecordFor records n = some r →
             ∃ sd, build_station_dict cfg r = .ok sd ∧ m2 n = some sd) := by
  intro records
  induction records with
  | nil =>
    intro m m2 h n
    cases h
    exact ⟨fun _ => rfl, fun r hr => by cases hr⟩
  | cons record rest ih =>
    intro m m2 h n
    cases hb : build_station_dict cfg record with
    | error e => simp only [get_metadata, hb] at h; cases h
    | ok sd =>
      simp only [get_metadata, hb] at h
      have hih := ih (metaInsert m record.siteName sd) m2 h n
      have hcons : lastRecordFor (record :: rest) n
          = (lastRecordFor rest n).elim
              (if record.siteName = n then some record else none) some := by
        show rest.foldl _ (if record.siteName = n then some record else none) = _
        rw [lastRecordFor_foldl]
      cases hlast : lastRecordFor rest n with
      | some r =>
        constructor
        · intro hnone
          rw [hcons, hlast] at hnone
          cases hnone
        · intro r2 hr2
          rw [hcons, hlast] at hr2
          simp only [Option.elim] at hr2
          injection hr2 with hr2e
          subst hr2e
          exact hih.2 r hlast
      | none =>
        have hbase : m2 n = metaInsert m record.siteName sd n := hih.1 hlast
        by_cases hname : record.siteName = n
        · constructor
          · intro hnone
            rw [hcons, hlast] at hnone
            simp [hname] at hnone
          · intro r2 hr2
            rw [hcons, hlast] at hr2
            simp only [Option.elim, if_pos hname] at hr2
            cases hr2
            refine ⟨sd, hb, ?_⟩
            rw [hbase]
            simp [metaInsert, hname]
        · constructor
          · intro _
            rw [hbase]
            simp [metaInsert, Ne.symm hname]
          · intro r2 hr2
            rw [hcons, hlast] at hr2
            simp only [Option.elim, if_neg hname] at hr2
            cases hr2

/-- A successful fetch certifies that every record of the response builds. -/
theorem builds_ok_of_get_metadata (cfg : LAQNConfig) :
    ∀ (records : List StationRecord) (m m2 : String → Option StationDict),
      get_metadata m cfg records = .ok m2 →
      ∀ r ∈ records, ∃ sd, build_station_dict cfg r = .ok sd := by
  intro records
  induction records with
  | nil => intro m m2 _ r hr; cases hr
  | cons record rest ih =>
    intro m m2 h r hr
    cases hb : build_station_dict cfg record with
    | error e => simp only [get_metadata, hb] at h; cases h
    | ok sd =>
      simp only [get_metadata, hb] at h
      rcases List.mem_cons.mp hr with rfl | hr2
      · exact ⟨sd, hb⟩
      · exact ih _ m2 h r hr2

/-- A response all of whose records build yields a successful fetch from
any starting mapping. -/
theorem get_metadata_ok_of_builds (cfg : LAQNConfig) :
    ∀ (records : List StationRecord),
      (∀ r ∈ records, ∃ sd, build_station_dict cfg r = .ok sd) →
      ∀ m, ∃ m2, get_metadata m cfg records = .ok m2 := by
  intro records
  induction records with
  | nil => exact fun _ m => ⟨m, rfl⟩
  | cons record rest ih =>
    intro h m
    obtain ⟨sd, hsd⟩ := h record (List.mem_cons_self _ _)
    obtain ⟨m2, hm2⟩ := ih (fun r hr => h r (List.mem_cons_of_mem _ hr))
      (metaInsert m record.siteName sd)
    exact ⟨m2, by simp only [get_metadata, hsd]; exact hm2⟩

/-- Counterexample for C7: fetching a response that contains only station
New, after an earlier fetch stored station Old, leaves the Old entry in
the mapping; a fetch merges into the mapping and does not replace prior
content. -/
theorem c7_metadata_counterexample :
    ((get_metadata (fun _ => none) ⟨[], []⟩ [⟨"Old", []⟩]).toOption.bind
      (fun m1 => (get_metadata m1 ⟨[], []⟩ [⟨"New", []⟩]).toOption.bind
        (fun m2 => m2 "Old"))) = some ⟨[], []⟩ := rfl

/-- C7 amended: a successful fetch assigns each fetched site name the dict
built from its last record and leaves every other name unchanged, so prior
content is merged over rather than replaced; an immediate re-fetch of the
same response succeeds and returns the very same mapping. -/
theorem c7_metadata_refetch (cfg : LAQNConfig) (records : List StationRecord)
    (m m2 : String → Option StationDict)
    (h : get_metadata m cfg records = .ok m2) :
    (∀ n, lastRecordFor records n = none → m2 n = m n) ∧
    (∀ n r, lastRecordFor records n = some r →
      ∃ sd, build_station_dict cfg r = .ok sd ∧ m2 n = some sd) ∧
    get_metadata m2 cfg records = .ok m2 := by
  have hlk := get_metadata_lookup cfg records m m2 h
  refine ⟨fun n => (hlk n).1, fun n r => (hlk n).2 r, ?_⟩
  obtain ⟨m3, hm3⟩ := get_metadata_ok_of_builds cfg records
    (builds_ok_of_get_metadata cfg records m m2 h) m2
  have hlk2 := get_metadata_lookup cfg records m2 m3 hm3
  have hm32 : m3 = m2 := by
    funext n
    cases hlast : lastRecordFor records n with
    | none => rw [(hlk2 n).1 hlast]
    | some r =>
      obtain ⟨sd, hsd, hv⟩ := (hlk n).2 r hlast
      obtain ⟨sd2, hsd2, hv2⟩ := (hlk2 n).2 r hlast
      rw [hv2, hv]
      rw [hsd] at hsd2
      injection hsd2 with he
      rw [he]
  rw [hm32] at hm3
  exact hm3

/-- Witness for C7 amended: re-fetching a one-station response from the
mapping it produced returns that mapping unchanged. -/
theorem c7_metadata_refetch_witness :
    get_metadata (fun n => if n = "New" then some ⟨[], []⟩ else none) ⟨[], []⟩ [⟨"New", []⟩]
      = .ok (fun n => if n = "New" then some ⟨[], []⟩ else none) :=
  (c7_metadata_refetch ⟨[], []⟩ [⟨"New", []⟩] (fun _ => none)
    (fun n => if n = "New" then some ⟨[], []⟩ else none) rfl).2.2

/-- One flush of a point list to the Influx writer for a station within a
week, as performed by influx.write_container_list in the driver loop. -/
structure DriverFlush where
  week : Nat
  station : String
  points : List Point
deriving DecidableEq, Repr

/-- Station loop of main.py (lines 268 to 296) for one week: fetch the
station csv (the network retrieval of get_measurements, supplied as an
oracle), transform it with the station metadata, flush the points and
clear; the loop body sits in no try block, so a raised exception aborts the
whole run, discarding all remaining stations.  The first component lists
the flushes made before any abort, the second the aborting error. -/
def run_stations (week : Nat)
    (fetch : Nat → String → Except PyError (List RawRow)) :
    List (String × StationDict) → List DriverFlush × Option PyError
  | [] => ([], none)
  | (name, st) :: rest =>
    match fetch week name with
    | .error e => ([], some e)
    | .ok rows =>
      match csv_to_json_core st rows with
      | .error e => ([], some e)
      | .ok pts =>
        (⟨week, name, pts⟩ :: (run_stations week fetch rest).1,
         (run_stations week fetch rest).2)

/-- Week loop of main.py (line 266): the weeks run in order and an abort
inside one week also discards every later week. -/
def run_weeks (fetch : Nat → String → Except PyError (List RawRow))
    (stations : List (String × StationDict)) :
    List Nat → List DriverFlush × Option PyError
  | [] => ([], none)
  | w :: ws =>
    match (run_stations w fetch stations).2 with
    | some e => ((run_stations w fetch stations).1, some e)
    | none => ((run_stations w fetch stations).1 ++ (run_weeks fetch stations ws).1,
               (run_weeks fetch stations ws).2)

/-- The whole driver loop over range(weeks_to_download). -/
def run_export (weeks : Nat) (stations : List (String × StationDict))
    (fetch : Nat → String → Except PyError (List RawRow)) :
    List DriverFlush × Option PyError :=
  run_weeks fetch stations (List.range weeks)

/-- Station loop accounting: an error-free pass flushes every station and
certifies every fetch succeeded, while an aborted pass flushes strictly
fewer stations than the catalog holds. -/
theorem run_stations_spec (week : Nat)
    (fetch : Nat → String → Except PyError (List RawRow)) :
    ∀ sl : List (String × StationDict),
      ((run_stations week fetch sl).2 = none →
        (run_stations week fetch sl).1.length = sl.length ∧
        ∀ p ∈ sl, ∃ rows, fetch week p.1 = .ok rows) ∧
      ((run_stations week fetch sl).2.isSome →
        (run_stations week fetch sl).1.length < sl.length) := by
  intro sl
  induction sl with
  | nil =>
    refine ⟨fun _ => ⟨rfl, fun p hp => by cases hp⟩, fun hs => ?_⟩
    simp [run_stations] at hs
  | cons p rest ih =>
    obtain ⟨name, st⟩ := p
    cases hf : fetch week name with
    | error e =>
      have he1 : (run_stations week fetch ((name, st) :: rest)).1 = [] := by
        simp [run_stations, hf]
      have he2 : (run_stations week fetch ((name, st) :: rest)).2 = some e := by
        simp [run_stations, hf]
      rw [he1, he2]
      refine ⟨fun hn => (nomatch hn), fun _ => ?_⟩
      simp only [List.length_nil, List.length_cons]
      omega
    | ok rows =>
      cases hc : csv_to_json_core st rows with
      | error e =>
        have he1 : (run_stations week fetch ((name, st) :: rest)).1 = [] := by
          simp [run_stations, hf, hc]
        have he2 : (run_stations week fetch ((name, st) :: rest)).2 = some e := by
          simp [run_stations, hf, hc]
        rw [he1, he2]
        refine ⟨fun hn => (nomatch hn), fun _ => ?_⟩
        simp only [List.length_nil, List.length_cons]
        omega
      | ok pts =>
        have he1 : (run_stations week fetch ((name, st) :: rest)).1
            = ⟨week, name, pts⟩ :: (run_stations week fetch rest).1 := by
          simp [run_stations, hf, hc]
        have he2 : (run_stations week fetch ((name, st) :: rest)).2
            = (run_stations week fetch rest).2 := by
          simp [run_stations, hf, hc]
        rw [he1, he2]
        constructor
        · intro hn
          obtain ⟨hlen, hall⟩ := ih.1 hn
          refine ⟨by simp [hlen], ?_⟩
          intro q hq
          rcases List.mem_cons.mp hq with rfl | hq2
          · exact ⟨rows, hf⟩
          · exact hall q hq2
        · intro hs
          have hlt := ih.2 hs
          simp only [List.length_cons]
          omega

/-- Week loop accounting: an error-free run flushes weeks times stations
many point lists and certifies every week passed, while a run recording an
error flushes strictly fewer. -/
theorem run_weeks_spec (fetch : Nat → String → Except PyError (List RawRow))
    (stations : List (String × StationDict)) :
    ∀ ws : List Nat,
      ((run_weeks fetch stations ws).2 = none →
        (run_weeks fetch stations ws).1.length = ws.length * stations.length ∧
        ∀ w ∈ ws, (run_stations w fetch stations).2 = none) ∧
      ((run_weeks fetch stations ws).2.isSome →
        (run_weeks fetch stations ws).1.length < ws.length * stations.length) := by
  intro ws
  induction ws with
  | nil =>
    refine ⟨fun _ => ⟨by simp [run_weeks], fun w hw => by cases hw⟩, fun hs => ?_⟩
    simp [run_weeks] at hs
  | cons w ws ih =>
    cases h2 : (run_stations w fetch stations).2 with
    | some e =>
      have he1 : (run_weeks fetch stations (w :: ws)).1
          = (run_stations w fetch stations).1 := by
        simp [run_weeks, h2]
      have he2 : (run_weeks fetch stations (w :: ws)).2 = some e := by
        simp [run_weeks, h2]
      rw [he1, he2]
      refine ⟨fun hn => (nomatch hn), fun _ => ?_⟩
      have hlt := (run_stations_spec w fetch stations).2 (by rw [h2]; rfl)
      have hmul : (ws.length + 1) * stations.length
          = stations.length + ws.length * stations.length := by ring
      simp only [List.length_cons]
      rw [hmul]
      omega
    | none =>
      have he1 : (run_weeks fetch stations (w :: ws)).1
          = (run_stations w fetch stations).1 ++ (run_weeks fetch stations ws).1 := by
        simp [run_weeks, h2]
      have he2 : (run_weeks fetch stations (w :: ws)).2
          = (run_weeks fetch stations ws).2 := by
        simp [run_weeks, h2]
      rw [he1, he2]
      have hlen1 := ((run_stations_spec w fetch stations).1 h2).1
      constructor
      · intro hn
        obtain ⟨hlen2, hall⟩ := ih.1 hn
        refine ⟨?_, ?_⟩
        · simp only [List.length_append, List.length_cons]
          rw [hlen1, hlen2]
          ring
        · intro w2 hw2
          rcases List.mem_cons.mp hw2 with rfl | hw3
          · exact h2
          · exact hall w2 hw3
      · intro hs
        have hlt2 := ih.2 hs
        have hmul : (ws.length + 1) * stations.length
            = stations.length + ws.length * stations.length := by ring
        simp only [List.length_append, List.length_cons]
        rw [hlen1, hmul]
        omega

/-- Fetch oracle of the concrete scenario: station A fails, every other
station returns an empty table. -/
def cexFetch : Nat → String → Except PyError (List RawRow) :=
  fun _ name => if name = "A" then .error .fetchError else .ok []

/-- Counterexample for C8: with two stations A and B in one window and a
failing fetch for A, the run aborts with the error, nothing is flushed,
and in particular station B is never processed, contradicting the claim
that each other station is still flushed. -/
theorem c8_driver_counterexample :
    run_export 1 [("A", ⟨[], []⟩), ("B", ⟨[], []⟩)] cexFetch
      = ([], some PyError.fetchError) := rfl

/-- C8 amended: the driver loop has no per-station error isolation: any
failing station fetch inside the processed range makes the whole run abort
with an error, and an aborted run flushes strictly fewer station-windows
than the full weeks times stations count, while an error-free run flushes
them all. -/
theorem c8_driver_abort (weeks : Nat) (stations : List (String × StationDict))
    (fetch : Nat → String → Except PyError (List RawRow)) :
    ((∃ w, w < weeks ∧ ∃ p ∈ stations, ∃ e, fetch w p.1 = .error e) →
      (run_export weeks stations fetch).2.isSome) ∧
    ((run_export weeks stations fetch).2.isSome →
      (run_export weeks stations fetch).1.length < weeks * stations.length) ∧
    ((run_export weeks stations fetch).2 = none →
      (run_export weeks stations fetch).1.length = weeks * stations.length) := by
  simp only [run_export]
  have hspec := run_weeks_spec fetch stations (List.range weeks)
  refine ⟨?_, ?_, ?_⟩
  · rintro ⟨w, hw, p, hp, e, he⟩
    by_contra hns
    have h2 : (run_weeks fetch stations (List.range weeks)).2 = none := by
      cases hh : (run_weeks fetch stations (List.range weeks)).2 with
      | none => rfl
      | some e2 => rw [hh] at hns; simp at hns
    obtain ⟨_, hall⟩ := hspec.1 h2
    have hsw := hall w (List.mem_range.mpr hw)
    obtain ⟨rows, hrows⟩ := ((run_stations_spec w fetch stations).1 hsw).2 p hp
    rw [he] at hrows
    cases hrows
  · intro hs
    have := hspec.2 hs
    rwa [List.length_range] at this
  · intro hn
    have := (hspec.1 hn).1
    rwa [List.length_range] at this

/-- Witness for C8 amended: the concrete aborted run flushes fewer than
its two station-windows. -/
theorem c8_driver_abort_witness :
    (run_export 1 [("A", ⟨[], []⟩), ("B", ⟨[], []⟩)] cexFetch).1.length < 1 * 2 :=
  (c8_driver_abort 1 [("A", ⟨[], []⟩), ("B", ⟨[], []⟩)] cexFetch).2.1 (by decide)

/-- Reference to a Python list object, an index in allocation order. -/
abbrev PyRef := Nat

/-- Heap of the Python list objects involved in the batching code of
get_measurements; each cell is one list of pollutant slots. -/
structure PyHeap where
  cells : List (List (Option String))
deriving DecidableEq, Repr

/-- Dereference of a list object (a dangling reference reads as empty). -/
def PyHeap.get (h : PyHeap) (r : PyRef) : List (Option String) :=
  h.cells.getD r []

/-- Allocation of a fresh list object, returning heap and reference. -/
def PyHeap.alloc (h : PyHeap) (l : List (Option String)) : PyHeap × PyRef :=
  (⟨h.cells ++ [l]⟩, h.cells.length)

/-- In-place overwrite of one list object. -/
def PyHeap.setCell (h : PyHeap) (r : PyRef) (l : List (Option String)) : PyHeap :=
  ⟨h.cells.set r l⟩

/-- In-place append of one element, the list append method. -/
def PyHeap.append1 (h : PyHeap) (r : PyRef) (x : Option String) : PyHeap :=
  h.setCell r (h.get r ++ [x])

/-- The while loop of get_measurements padding a slice to five entries by
appending None in place (laqn.py lines 199 and 200); from every reachable
state the loop body runs at most five times, so fuel five is exact. -/
def padLoop : Nat → PyHeap → PyRef → PyHeap
  | 0, h, _ => h
  | fuel + 1, h, r =>
    if (h.get r).length < 5 then padLoop fuel (h.append1 r none) r else h

/-- One iteration of the stage loop (laqn.py lines 195 to 201): slice five
entries of the allowed list into a freshly allocated list object, pad it in
place, and append its reference to pollutants_per_stage. -/
def stage_step (allowedRef : PyRef) (acc : PyHeap × List PyRef) (stage : Nat) :
    PyHeap × List PyRef :=
  let p := acc.1.alloc (((acc.1.get allowedRef).drop (stage * 5)).take 5)
  (padLoop 5 p.1 p.2, acc.2 ++ [p.2])

/-- Batching portion of get_measurements (laqn.py lines 186 to 201) on the
heap: bind allowed_pollutants to the config Pollutants object, or to a
fresh list of every configured code when that list is empty, then run the
stage loop.  Returns the final heap and the per-stage references. -/
def get_measurements_batching (h : PyHeap) (configPollutants : PyRef)
    (allCodes : List String) : PyHeap × List PyRef :=
  let alloc0 :=
    if (h.get configPollutants).length = 0
    then h.alloc (allCodes.map some)
    else (h, configPollutants)
  (List.range (download_stages ((alloc0.1).get alloc0.2).length)).foldl
    (stage_step alloc0.2) (alloc0.1, [])

/-- Overwriting one cell leaves every other cell unchanged. -/
theorem setCell_get_ne (h : PyHeap) (r2 r : PyRef) (l : List (Option String))
    (hne : r ≠ r2) : (h.setCell r2 l).get r = h.get r := by
  simp only [PyHeap.setCell, PyHeap.get]
  rw [List.getD_eq_getElem?_getD, List.getD_eq_getElem?_getD,
    List.getElem?_set_ne (fun he => hne he.symm)]

/-- Overwriting a cell preserves the heap extent. -/
theorem setCell_length (h : PyHeap) (r : PyRef) (l : List (Option String)) :
    (h.setCell r l).cells.length = h.cells.length := by
  simp [PyHeap.setCell]

/-- Allocation leaves every existing cell readable unchanged. -/
theorem alloc_get_lt (h : PyHeap) (l : List (Option String)) (r : PyRef)
    (hr : r < h.cells.length) : (h.alloc l).1.get r = h.get r := by
  simp only [PyHeap.alloc, PyHeap.get]
  rw [List.getD_eq_getElem?_getD, List.getD_eq_getElem?_getD,
    List.getElem?_append, if_pos hr]

/-- The pad loop mutates only its own cell and allocates nothing. -/
theorem padLoop_frame (fuel : Nat) :
    ∀ (h : PyHeap) (r2 r : PyRef), r ≠ r2 →
      (padLoop fuel h r2).get r = h.get r ∧
      (padLoop fuel h r2).cells.length = h.cells.length := by
  induction fuel with
  | zero => exact fun h r2 r _ => ⟨rfl, rfl⟩
  | succ fuel ih =>
    intro h r2 r hne
    simp only [padLoop]
    split
    · have hrec := ih (h.append1 r2 none) r2 r hne
      refine ⟨?_, ?_⟩
      · rw [hrec.1]
        exact setCell_get_ne h r2 r _ hne
      · rw [hrec.2]
        exact setCell_length h r2 _
    · exact ⟨rfl, rfl⟩

/-- One stage mutates only the freshly allocated slice object: any cell
within the previous extent reads back unchanged and stays in extent. -/
theorem stage_step_frame (allowedRef r : PyRef) (acc : PyHeap × List PyRef)
    (stage : Nat) (hr : r < acc.1.cells.length) :
    (stage_step allowedRef acc stage).1.get r = acc.1.get r ∧
    r < (stage_step allowedRef acc stage).1.cells.length := by
  simp only [stage_step]
  have hne : r ≠ acc.1.cells.length := Nat.ne_of_lt hr
  have hpad := padLoop_frame 5
    (acc.1.alloc (((acc.1.get allowedRef).drop (stage * 5)).take 5)).1
    (acc.1.alloc (((acc.1.get allowedRef).drop (stage * 5)).take 5)).2 r hne
  refine ⟨?_, ?_⟩
  · rw [hpad.1]
    exact alloc_get_lt acc.1 _ r hr
  · rw [hpad.2]
    have hext : (acc.1.alloc (((acc.1.get allowedRef).drop (stage * 5)).take 5)).1.cells.length
        = acc.1.cells.length + 1 := by
      simp [PyHeap.alloc]
    rw [hext]
    exact Nat.lt_succ_of_lt hr

/-- The whole stage loop preserves every cell of the initial extent. -/
theorem stage_fold_frame (allowedRef r : PyRef) :
    ∀ (l : List Nat) (acc : PyHeap × List PyRef), r < acc.1.cells.length →
      ((l.foldl (stage_step allowedRef) acc).1.get r = acc.1.get r ∧
       r < (l.foldl (stage_step allowedRef) acc).1.cells.length) := by
  intro l
  induction l with
  | nil => exact fun acc h => ⟨rfl, h⟩
  | cons stage rest ih =>
    intro acc hacc
    rw [List.foldl_cons]
    have hstep := stage_step_frame allowedRef r acc stage hacc
    have hrec := ih (stage_step allowedRef acc stage) hstep.2
    exact ⟨hrec.1.trans hstep.1, hrec.2⟩

/-- C9: downloading measurements never mutates the configured
requested-quantity list: the batching loop slices copies of it and pads
only those fresh copies, so after the loop the config Pollutants object
reads back exactly as before. -/
theorem c9_config_pollutants_frame (h : PyHeap) (configPollutants : PyRef)
    (allCodes : List String) (hr : configPollutants < h.cells.length) :
    ((get_measurements_batching h configPollutants allCodes).1).get configPollutants
      = h.get configPollutants := by
  simp only [get_measurements_batching]
  by_cases hc : (h.get configPollutants).length = 0
  · simp only [if_pos hc]
    have hlen : configPollutants < (h.alloc (allCodes.map some)).1.cells.length := by
      have hext : (h.alloc (allCodes.map some)).1.cells.length = h.cells.length + 1 := by
        simp [PyHeap.alloc]
      rw [hext]
      exact Nat.lt_succ_of_lt hr
    have hfold := stage_fold_frame (h.alloc (allCodes.map some)).2 configPollutants
      (List.range (download_stages
        (((h.alloc (allCodes.map some)).1).get (h.alloc (allCodes.map some)).2).length))
      ((h.alloc (allCodes.map some)).1, []) hlen
    rw [hfold.1]
    exact alloc_get_lt h _ configPollutants hr
  · simp only [if_neg hc]
    exact (stage_fold_frame configPollutants configPollutants _ (h, []) hr).1

/-- Witness for C9: a six-code configured list survives the two-stage
batching loop unchanged. -/
theorem c9_config_pollutants_frame_witness :
    ((get_measurements_batching
        ⟨[[some "NO", some "NO2", some "NOX", some "O3", some "PM10", some "SO2"]]⟩
        0 []).1).get 0
      = [some "NO", some "NO2", some "NOX", some "O3", some "PM10", some "SO2"] := by
  rw [c9_config_pollutants_frame
    ⟨[[some "NO", some "NO2", some "NOX", some "O3", some "PM10", some "SO2"]]⟩
    0 [] (by decide)]
  rfl

/-- A stored measurement table; the None alternative is what the guards in
csv_to_json_list and csv_as_text test the stored value against. -/
abbrev StoredTable := Option (List RawRow)

/-- The measurement_csvs store, a defaultdict from date key to a plain
inner dict from station name: the outer lookup of a missing date key
yields an empty inner dict, so the stored value is None exactly when the
inner lookup would raise KeyError. -/
abbrev CsvStore := String → String → Option StoredTable

/-- The empty store created by the constructor and by
clear_measurement_csvs. -/
def emptyStore : CsvStore := fun _ _ => none

/-- The assignment of get_measurements (laqn.py lines 226 to 228): the
concatenated DataFrame is stored under date key then station name. -/
def storeSet (st : CsvStore) (dateKey stationName : String) (v : StoredTable) : CsvStore :=
  fun d s => if d = dateKey ∧ s = stationName then some v else st d s

/-- The double indexing self.measurement_csvs[dateKey][stationName]: the
defaultdict layer makes the date lookup total, and the inner plain dict
raises KeyError when the station name is absent. -/
def csvLookup (st : CsvStore) (dateKey stationName : String) :
    Except PyError StoredTable :=
  match st dateKey stationName with
  | none => .error .keyError
  | some v => .ok v

/-- csv_to_json_list (laqn.py lines 230 to 288) as a function of the
store: look up the table under the formatted date then the station name;
a stored None returns None early (line 254); otherwise transform the rows
with the station metadata.  The ok value carries the point list stored
into measurement_jsons, or none for the early return. -/
def csv_to_json_list_m (store : CsvStore) (station : StationDict)
    (stationName : String) (date : PyDateTime) :
    Except PyError (Option (List Point)) :=
  match csvLookup store (strftime_Ymd date) stationName with
  | .error e => .error e
  | .ok none => .ok none
  | .ok (some rows) =>
    match csv_to_json_core station rows with
    | .error e => .error e
    | .ok pts => .ok (some pts)

/-- Rendering of a DataFrame by the pandas to_csv serializer, an external
library call modelled as a simple row rendering; only its existence
matters to the lookup behavior under verification. -/
def table_to_csv (rows : List RawRow) : String :=
  String.join (rows.map (fun r =>
    r.site ++ "," ++ r.species ++ "," ++ r.readingDateTime ++ "\n"))

/-- csv_as_text (laqn.py lines 290 to 305): look up the stored table under
year then station name (KeyError when the pair was never stored), render
it, or return the empty string for a stored None. -/
def csv_as_text (store : CsvStore) (stationName year : String) :
    Except PyError String :=
  match csvLookup store year stationName with
  | .error e => .error e
  | .ok (some t) => .ok (table_to_csv t)
  | .ok none => .ok ""

/-- The operations of the LAQNAPI object that touch measurement_csvs:
get_measurements always stores a concatenated DataFrame, never None, and
clear_measurement_csvs resets the store to empty. -/
inductive StoreOp where
  | getMeasurements (dateKey stationName : String) (rows : List RawRow) : StoreOp
  | clearCsvs : StoreOp
deriving DecidableEq, Repr

/-- Effect of one operation on the store. -/
def applyOp (st : CsvStore) : StoreOp → CsvStore
  | .getMeasurements d s rows => storeSet st d s (some rows)
  | .clearCsvs => emptyStore

/-- The store reached by a sequence of operations from the freshly
constructed object. -/
def applyOps (ops : List StoreOp) : CsvStore :=
  ops.foldl applyOp emptyStore

/-- A pair never stored reads back as absent. -/
theorem applyOps_none (dateKey stationName : String) :
    ∀ (ops : List StoreOp) (st : CsvStore),
      (∀ rows, StoreOp.getMeasurements dateKey stationName rows ∉ ops) →
      st dateKey stationName = none →
      (ops.foldl applyOp st) dateKey stationName = none := by
  intro ops
  induction ops with
  | nil => exact fun st _ h => h
  | cons op rest ih =>
    intro st hnever hst
    rw [List.foldl_cons]
    cases op with
    | clearCsvs =>
      exact ih _ (fun rows hmem => hnever rows (List.mem_cons_of_mem _ hmem)) rfl
    | getMeasurements d2 s2 rows2 =>
      apply ih _ (fun rows hmem => hnever rows (List.mem_cons_of_mem _ hmem))
      simp only [applyOp, storeSet]
      split
      · rename_i hcond
        exfalso
        obtain ⟨hd, hs⟩ := hcond
        subst hd
        subst hs
        exact hnever rows2 (List.mem_cons_self _ _)
      · exact hst

/-- No reachable store ever holds None: every stored value is a table. -/
theorem applyOps_not_some_none (d s : String) :
    ∀ (ops : List StoreOp) (st : CsvStore),
      st d s ≠ some none →
      (ops.foldl applyOp st) d s ≠ some none := by
  intro ops
  induction ops with
  | nil => exact fun st h => h
  | cons op rest ih =>
    intro st hst
    rw [List.foldl_cons]
    cases op with
    | clearCsvs =>
      exact ih _ (fun h => by cases h)
    | getMeasurements d2 s2 rows2 =>
      apply ih
      simp only [applyOp, storeSet]
      split
      · intro h
        cases h
      · exact hst

/-- C10: for a (date, station) pair for which get_measurements was never
called, both csv_to_json_list and csv_as_text raise KeyError instead of
returning None or an empty result, and on every reachable store the
stored-table-is-None guard of csv_to_json_list is unreachable: the call
never takes the early None return, because get_measurements always stores
a DataFrame. -/
theorem c10_missing_pair_keyerror (ops : List StoreOp) (station : StationDict)
    (stationName : String) (date : PyDateTime)
    (hnever : ∀ rows,
      StoreOp.getMeasurements (strftime_Ymd date) stationName rows ∉ ops) :
    csv_to_json_list_m (applyOps ops) station stationName date = .error .keyError ∧
    csv_as_text (applyOps ops) stationName (strftime_Ymd date) = .error .keyError ∧
    (∀ (ops2 : List StoreOp) (station2 : StationDict) (s2 : String) (d2 : PyDateTime),
      csv_to_json_list_m (applyOps ops2) station2 s2 d2 ≠ .ok none) := by
  have habsent : (applyOps ops) (strftime_Ymd date) stationName = none :=
    applyOps_none (strftime_Ymd date) stationName ops emptyStore hnever rfl
  refine ⟨?_, ?_, ?_⟩
  · simp only [csv_to_json_list_m, csvLookup, habsent]
  · simp only [csv_as_text, csvLookup, habsent]
  · intro ops2 station2 s2 d2
    have hguard : (applyOps ops2) (strftime_Ymd d2) s2 ≠ some none :=
      applyOps_not_some_none (strftime_Ymd d2) s2 ops2 emptyStore (fun h => by cases h)
    intro hok
    simp only [csv_to_json_list_m, csvLookup] at hok
    cases hv : (applyOps ops2) (strftime_Ymd d2) s2 with
    | none =>
      rw [hv] at hok
      dsimp only at hok
      cases hok
    | some v =>
      rw [hv] at hok
      cases v with
      | none => exact hguard hv
      | some rows =>
        dsimp only at hok
        cases hc : csv_to_json_core station2 rows with
        | error e =>
          rw [hc] at hok
          cases hok
        | ok pts =>
          rw [hc] at hok
          cases hok

/-- Witness for C10: with one other station stored under the same date,
looking up an unfetched station raises KeyError from both accessors. -/
theorem c10_missing_pair_keyerror_witness :
    csv_to_json_list_m
        (applyOps [StoreOp.getMeasurements "2021-01-01" "Other" []])
        exStation "A" ⟨2021, 1, 1, 0, 0⟩ = .error .keyError ∧
    csv_as_text (applyOps [StoreOp.getMeasurements "2021-01-01" "Other" []])
        "A" (strftime_Ymd ⟨2021, 1, 1, 0, 0⟩) = .error .keyError := by
  have h := c10_missing_pair_keyerror
    [StoreOp.getMeasurements "2021-01-01" "Other" []] exStation "A" ⟨2021, 1, 1, 0, 0⟩
    (by
      intro rows hmem
      rcases List.mem_singleton.mp hmem with heq
      injection heq with h1 h2 h3
      exact absurd h2 (by decide))
  exact ⟨h.1, h.2.1⟩

end LAQN
